import Mathlib

/-!
Shallow embedding of `src/Battleship_puzzle.py`, a validator for Battleship
puzzle solutions, together with proofs about the claims of its specification.

Modelling conventions:
* Python `int` becomes `Int`; grid dimensions become `Nat`.
* A Python subscript `l[i]` is modelled by `pyGet l i : Option α`: negative
  indices wrap around as in Python, and an index outside `[-len, len)` yields
  `none` (Python's `IndexError`).  Functions of the source that perform raw
  subscript reads therefore return `Option Bool`: `none` models the program
  raising an exception.
* Python list mutation `l[i] = v` (always performed after an explicit bounds
  guard in the source) is modelled with `List.set`.
-/

inductive Pieza where
  | W
  | C
  | L
  | R
  | T
  | B
  | M
deriving DecidableEq

/-- Helper of the source telling whether a piece counts toward the sums. -/
def Pieza.es_barco (p : Pieza) : Bool :=
  p != Pieza.W

inductive Direccion where
  | VERTICAL
  | HORIZONTAL
deriving DecidableEq

structure Celda where
  fila : Int
  columna : Int
  tipo : Pieza
deriving DecidableEq

structure Objetivo where
  ubicacion : Int × Int
  partes : List Celda
deriving DecidableEq

/-- Python list read `l[i]`: wraps negative indices, `none` on `IndexError`. -/
def pyGet {α : Type} (l : List α) (i : Int) : Option α :=
  if 0 ≤ i then
    if i < l.length then l.get? i.toNat else none
  else
    if -i ≤ l.length then l.get? (i + l.length).toNat else none

/-- Python nested read `m[f][c]`. -/
def pyGet2 {α : Type} (m : List (List α)) (f c : Int) : Option α :=
  match pyGet m f with
  | none => none
  | some row => pyGet row c

/-- Total read of the matrix at nonnegative coordinates, used in statements
about positions already known to be in range. -/
def getM (m : List (List Pieza)) (f c : Nat) : Pieza :=
  (m.getD f []).getD c Pieza.W

/-- The guarded assignment `matriz[f][c] = v` of the source. -/
def setCell (m : List (List Pieza)) (f c : Nat) (v : Pieza) : List (List Pieza) :=
  m.set f ((m.getD f []).set c v)

/-- The in-bounds test `0 <= f < filas and 0 <= c < cols` that the source
inlines everywhere. -/
def enRango (filas cols : Nat) (f c : Int) : Bool :=
  decide (0 ≤ f ∧ f < (filas : Int) ∧ 0 ≤ c ∧ c < (cols : Int))

/-- Placeholder modelling Python's `None` entries of `[None] * longitud`;
every index is overwritten whenever `longitud ≥ 1` (the source raises on
`longitud = 0`, outside the modelled domain). -/
def celdaNula : Celda :=
  ⟨0, 0, Pieza.W⟩

/-- `Barco.construir_partes_barco`: builds the cell list of a ship from its
anchor, length and direction, mirroring the index assignments of the source
(`partes[0]`, `partes[-1]`, then the interior loop). -/
def construir_partes_barco (ubicacion : Int × Int) (longitud : Nat)
    (direccion : Direccion) : List Celda :=
  let f_ini := ubicacion.1
  let c_ini := ubicacion.2
  let partes := List.replicate longitud celdaNula
  match direccion with
  | Direccion.VERTICAL =>
      let p1 := partes.set 0 ⟨f_ini, c_ini, Pieza.T⟩
      let p2 := p1.set (longitud - 1) ⟨f_ini + (longitud : Int) - 1, c_ini, Pieza.B⟩
      (List.range' 1 (longitud - 2)).foldl
        (fun m i => m.set i ⟨f_ini + (i : Int), c_ini, Pieza.M⟩) p2
  | Direccion.HORIZONTAL =>
      let p1 := partes.set 0 ⟨f_ini, c_ini, Pieza.L⟩
      let p2 := p1.set (longitud - 1) ⟨f_ini, c_ini + (longitud : Int) - 1, Pieza.R⟩
      (List.range' 1 (longitud - 2)).foldl
        (fun m i => m.set i ⟨f_ini, c_ini + (i : Int), Pieza.M⟩) p2

/-- The cell list a `Submarino` is constructed with. -/
def submarino_partes (ubicacion : Int × Int) : List Celda :=
  [⟨ubicacion.1, ubicacion.2, Pieza.C⟩]

/-- `Barco.__init__` as a constructor of the underlying `Objetivo`. -/
def mkBarco (ubicacion : Int × Int) (longitud : Nat) (direccion : Direccion) : Objetivo :=
  ⟨ubicacion, construir_partes_barco ubicacion longitud direccion⟩

/-- `Submarino.__init__` as a constructor of the underlying `Objetivo`. -/
def mkSubmarino (ubicacion : Int × Int) : Objetivo :=
  ⟨ubicacion, submarino_partes ubicacion⟩

structure Tablero where
  tamano_tablero : Nat × Nat
  flota : List Objetivo
  pistas : List (Int × Int × Pieza)
  pistas_filas : List Int
  pistas_cols : List Int
  matriz : List (List Pieza)
deriving DecidableEq

/-- Loop body of `Tablero.construir_matriz`: paint one declared cell, skipping
it when out of bounds. -/
def pintarCelda (filas cols : Nat) (matriz : List (List Pieza)) (celda : Celda) :
    List (List Pieza) :=
  if enRango filas cols celda.fila celda.columna then
    setCell matriz celda.fila.toNat celda.columna.toNat celda.tipo
  else
    matriz

/-- `Tablero.construir_matriz`: all-water grid, then paint every part of every
target in fleet order, skipping out-of-bounds parts. -/
def construir_matriz (filas cols : Nat) (flota : List Objetivo) : List (List Pieza) :=
  flota.foldl
    (fun matriz obj => obj.partes.foldl (pintarCelda filas cols) matriz)
    (List.replicate filas (List.replicate cols Pieza.W))

/-- `Tablero.__init__`: stores the inputs and derives the matrix once. -/
def mkTablero (nFilas nColumnas : Nat) (flota : List Objetivo)
    (pistas : List (Int × Int × Pieza)) (pistas_filas pistas_cols : List Int) : Tablero :=
  ⟨(nFilas, nColumnas), flota, pistas, pistas_filas, pistas_cols,
    construir_matriz nFilas nColumnas flota⟩

/-- `Objetivo.validar_limites`: every part inside the grid. -/
def Objetivo.validar_limites (o : Objetivo) (t : Tablero) : Bool :=
  o.partes.all fun parte => enRango t.tamano_tablero.1 t.tamano_tablero.2 parte.fila parte.columna

/-- Loop of `Objetivo.validar_integridad` over the parts: bounds guard, then a
raw read of the matrix compared with the declared piece. -/
def integridadAux (filas cols : Nat) (matriz : List (List Pieza)) :
    List Celda → Option Bool
  | [] => some true
  | parte :: resto =>
      if enRango filas cols parte.fila parte.columna then
        match pyGet2 matriz parte.fila parte.columna with
        | none => none
        | some pieza =>
            if pieza ≠ parte.tipo then some false
            else integridadAux filas cols matriz resto
      else some false

/-- `Objetivo.validar_integridad`: the drawn matrix agrees with every declared
part; an overwrite by another ship shows up as a mismatch. -/
def Objetivo.validar_integridad (o : Objetivo) (t : Tablero) : Option Bool :=
  integridadAux t.tamano_tablero.1 t.tamano_tablero.2 t.matriz o.partes

/-- The eight Moore-neighborhood offsets of the source. -/
def deltas : List (Int × Int) :=
  [(-1, -1), (-1, 0), (-1, 1), (0, -1), (0, 1), (1, -1), (1, 0), (1, 1)]

/-- Inner loop of `Objetivo.validar_espaciado` over the neighbor offsets of one
part: in-bounds neighbors that are not the target's own cells must be water. -/
def vecinosAux (filas cols : Nat) (matriz : List (List Pieza))
    (mis_coordenadas : List (Int × Int)) (pf pc : Int) :
    List (Int × Int) → Option Bool
  | [] => some true
  | (df, dc) :: resto =>
      let vecino_f := pf + df
      let vecino_c := pc + dc
      if enRango filas cols vecino_f vecino_c then
        if (vecino_f, vecino_c) ∉ mis_coordenadas then
          match pyGet2 matriz vecino_f vecino_c with
          | none => none
          | some pieza =>
              if pieza ≠ Pieza.W then some false
              else vecinosAux filas cols matriz mis_coordenadas pf pc resto
        else vecinosAux filas cols matriz mis_coordenadas pf pc resto
      else vecinosAux filas cols matriz mis_coordenadas pf pc resto

/-- Outer loop of `Objetivo.validar_espaciado` over the parts: out-of-bounds
parts are skipped entirely. -/
def espaciadoAux (filas cols : Nat) (matriz : List (List Pieza))
    (mis_coordenadas : List (Int × Int)) : List Celda → Option Bool
  | [] => some true
  | parte :: resto =>
      if enRango filas cols parte.fila parte.columna then
        match vecinosAux filas cols matriz mis_coordenadas parte.fila parte.columna deltas with
        | none => none
        | some false => some false
        | some true => espaciadoAux filas cols matriz mis_coordenadas resto
      else espaciadoAux filas cols matriz mis_coordenadas resto

/-- `Objetivo.validar_espaciado`: every ship part is surrounded by water except
for the target's own cells, over the full 8-neighborhood. -/
def Objetivo.validar_espaciado (o : Objetivo) (t : Tablero) : Option Bool :=
  espaciadoAux t.tamano_tablero.1 t.tamano_tablero.2 t.matriz
    (o.partes.map fun p => (p.fila, p.columna)) o.partes

/-- `Objetivo.validar_restricciones`: bounds, then integrity, then spacing. -/
def Objetivo.validar_restricciones (o : Objetivo) (t : Tablero) : Option Bool :=
  if ¬ o.validar_limites t then some false
  else
    match o.validar_integridad t with
    | none => none
    | some b =>
        if ¬ b then some false
        else
          match o.validar_espaciado t with
          | none => none
          | some b2 => if ¬ b2 then some false else some true

/-- Row sum `sum(1 for c in range(cols) if matriz[f][c].es_barco())`, with the
reads modelled as raw subscripts. -/
def contarAux (matriz : List (List Pieza)) (f : Int) : List Nat → Option Nat
  | [] => some 0
  | c :: resto =>
      match pyGet2 matriz f (c : Int) with
      | none => none
      | some pieza =>
          match contarAux matriz f resto with
          | none => none
          | some n => some ((if pieza.es_barco then 1 else 0) + n)

/-- Column sum `sum(1 for f in range(filas) if matriz[f][c].es_barco())`. -/
def contarColAux (matriz : List (List Pieza)) (c : Int) : List Nat → Option Nat
  | [] => some 0
  | f :: resto =>
      match pyGet2 matriz (f : Int) c with
      | none => none
      | some pieza =>
          match contarColAux matriz c resto with
          | none => none
          | some n => some ((if pieza.es_barco then 1 else 0) + n)

/-- Row loop of `Tablero.validar_cuentas`. -/
def cuentasFilasAux (matriz : List (List Pieza)) (cols : Nat) (pistas_filas : List Int) :
    List Nat → Option Bool
  | [] => some true
  | f :: resto =>
      match contarAux matriz (f : Int) (List.range cols) with
      | none => none
      | some suma =>
          match pyGet pistas_filas (f : Int) with
          | none => none
          | some pista =>
              if (suma : Int) ≠ pista then some false
              else cuentasFilasAux matriz cols pistas_filas resto

/-- Column loop of `Tablero.validar_cuentas`. -/
def cuentasColsAux (matriz : List (List Pieza)) (filas : Nat) (pistas_cols : List Int) :
    List Nat → Option Bool
  | [] => some true
  | c :: resto =>
      match contarColAux matriz (c : Int) (List.range filas) with
      | none => none
      | some suma =>
          match pyGet pistas_cols (c : Int) with
          | none => none
          | some pista =>
              if (suma : Int) ≠ pista then some false
              else cuentasColsAux matriz filas pistas_cols resto

/-- `Tablero.validar_cuentas`: every row sum, then every column sum, must
match the corresponding clue. -/
def Tablero.validar_cuentas (t : Tablero) : Option Bool :=
  match cuentasFilasAux t.matriz t.tamano_tablero.2 t.pistas_filas
      (List.range t.tamano_tablero.1) with
  | none => none
  | some false => some false
  | some true =>
      cuentasColsAux t.matriz t.tamano_tablero.1 t.pistas_cols
        (List.range t.tamano_tablero.2)

/-- Loop of `Tablero.validar_pistas`: a raw, unguarded read of the matrix at
each clue position, compared with the required piece. -/
def pistasAux (matriz : List (List Pieza)) : List (Int × Int × Pieza) → Option Bool
  | [] => some true
  | (fila, columna, tipo) :: resto =>
      match pyGet2 matriz fila columna with
      | none => none
      | some pieza =>
          if pieza ≠ tipo then some false
          else pistasAux matriz resto

/-- `Tablero.validar_pistas`: every fixed-cell clue must be drawn on the
matrix. -/
def Tablero.validar_pistas (t : Tablero) : Option Bool :=
  pistasAux t.matriz t.pistas

/-- List-comprehension loop of `Tablero.obtener_barcos_invalidos`. -/
def invalidosAux (t : Tablero) : List Objetivo → Option (List Objetivo)
  | [] => some []
  | barco :: resto =>
      match barco.validar_restricciones t with
      | none => none
      | some v =>
          match invalidosAux t resto with
          | none => none
          | some l => some (if ¬ v then barco :: l else l)

/-- `Tablero.obtener_barcos_invalidos`: the targets failing validation, in
fleet order. -/
def Tablero.obtener_barcos_invalidos (t : Tablero) : Option (List Objetivo) :=
  invalidosAux t t.flota

/-! ### List update lemmas -/

theorem getD_set {α : Type} (l : List α) (i j : Nat) (a d : α) :
    (l.set i a).getD j d = if i = j ∧ j < l.length then a else l.getD j d := by
  rw [List.getD_eq_getElem?_getD, List.getD_eq_getElem?_getD, List.getElem?_set]
  by_cases h1 : i = j
  · by_cases h2 : j < l.length
    · simp [h1, h2]
    · rw [List.getElem?_eq_none (by omega)]
      simp [h1, h2]
  · simp [h1]

theorem getD_replicate_eq {α : Type} (n j : Nat) (a d : α) :
    (List.replicate n a).getD j d = if j < n then a else d := by
  rw [List.getD_eq_getElem?_getD, List.getElem?_replicate]
  split <;> rfl

theorem getD_foldl_set {α : Type} (idxs : List Nat) (g : Nat → α) (l : List α) (j : Nat) (d : α) :
    (idxs.foldl (fun m i => m.set i (g i)) l).getD j d =
      if j ∈ idxs ∧ j < l.length then g j else l.getD j d := by
  induction idxs generalizing l with
  | nil => simp
  | cons i rest ih =>
      rw [List.foldl_cons, ih, List.length_set, getD_set]
      by_cases h1 : j ∈ rest
      · by_cases hl : j < l.length <;> simp [h1, hl]
      · by_cases h2 : i = j
        · subst h2
          by_cases h3 : i < l.length <;> simp [h1, h3]
        · simp [h1, h2, Ne.symm h2]

theorem length_foldl_set {α : Type} (idxs : List Nat) (g : Nat → α) (l : List α) :
    (idxs.foldl (fun m i => m.set i (g i)) l).length = l.length := by
  induction idxs generalizing l with
  | nil => rfl
  | cons i rest ih => rw [List.foldl_cons, ih, List.length_set]

/-! ### Geometry of the built ship parts -/

theorem length_construir_partes_barco (u : Int × Int) (L : Nat) (d : Direccion) :
    (construir_partes_barco u L d).length = L := by
  cases d <;> simp [construir_partes_barco, length_foldl_set]

theorem construir_partes_barco_vertical_getD (f c : Int) (L i : Nat) (hL : 2 ≤ L)
    (hi : i < L) :
    (construir_partes_barco (f, c) L Direccion.VERTICAL).getD i celdaNula =
      if i = 0 then ⟨f, c, Pieza.T⟩
      else if i = L - 1 then ⟨f + (L : Int) - 1, c, Pieza.B⟩
      else ⟨f + (i : Int), c, Pieza.M⟩ := by
  simp only [construir_partes_barco]
  rw [getD_foldl_set, getD_set, getD_set, getD_replicate_eq]
  simp only [List.length_set, List.length_replicate, List.mem_range'_1]
  split_ifs <;> first | rfl | omega

theorem construir_partes_barco_horizontal_getD (f c : Int) (L i : Nat) (hL : 2 ≤ L)
    (hi : i < L) :
    (construir_partes_barco (f, c) L Direccion.HORIZONTAL).getD i celdaNula =
      if i = 0 then ⟨f, c, Pieza.L⟩
      else if i = L - 1 then ⟨f, c + (L : Int) - 1, Pieza.R⟩
      else ⟨f, c + (i : Int), Pieza.M⟩ := by
  simp only [construir_partes_barco]
  rw [getD_foldl_set, getD_set, getD_set, getD_replicate_eq]
  simp only [List.length_set, List.length_replicate, List.mem_range'_1]
  split_ifs <;> first | rfl | omega

theorem construir_partes_barco_one_vertical (f c : Int) :
    construir_partes_barco (f, c) 1 Direccion.VERTICAL = [⟨f, c, Pieza.B⟩] := by
  simp [construir_partes_barco, List.replicate]

theorem construir_partes_barco_one_horizontal (f c : Int) :
    construir_partes_barco (f, c) 1 Direccion.HORIZONTAL = [⟨f, c, Pieza.R⟩] := by
  simp [construir_partes_barco, List.replicate]

/-- C1, counterexample: a `Barco` of length 1 does not get a Submarine-kind
cell, and its single cell depends on the orientation — `partes[-1]`
overwrites `partes[0]`, leaving a Bottom-end (vertical) or Right-end
(horizontal) cell. -/
theorem C1_counterexample :
    construir_partes_barco (0, 0) 1 Direccion.VERTICAL ≠ [Celda.mk 0 0 Pieza.C] ∧
    construir_partes_barco (0, 0) 1 Direccion.VERTICAL ≠
      construir_partes_barco (0, 0) 1 Direccion.HORIZONTAL := by
  decide

/-- C1, amended: a `Barco` of length 1 emits exactly one cell at the anchor,
but its kind is Bottom-end under the vertical orientation and Right-end under
the horizontal one; the single Submarine-kind cell at the anchor is produced
by the `Submarino` variant, not by `Barco.construir_partes_barco`. -/
theorem C1_length_one_amended (u : Int × Int) :
    construir_partes_barco u 1 Direccion.VERTICAL = [⟨u.1, u.2, Pieza.B⟩] ∧
    construir_partes_barco u 1 Direccion.HORIZONTAL = [⟨u.1, u.2, Pieza.R⟩] ∧
    (mkSubmarino u).partes = [⟨u.1, u.2, Pieza.C⟩] :=
  ⟨construir_partes_barco_one_vertical u.1 u.2,
   construir_partes_barco_one_horizontal u.1 u.2, rfl⟩

/-- C8: for length `L ≥ 2` the geometry builder produces exactly `L` cells;
vertically the first is Top-end at the anchor, the last Bottom-end at
`(r + L - 1, c)` and each interior `i` is Middle at `(r + i, c)`;
horizontally the first is Left-end, the last Right-end at `(r, c + L - 1)`
and interiors Middle at `(r, c + i)` — a contiguous anchor-inclusive run
along the orientation's axis. -/
theorem C8_barco_geometry (f c : Int) (L : Nat) (hL : 2 ≤ L) :
    (construir_partes_barco (f, c) L Direccion.VERTICAL).length = L ∧
    (construir_partes_barco (f, c) L Direccion.HORIZONTAL).length = L ∧
    (∀ i, i < L →
      (construir_partes_barco (f, c) L Direccion.VERTICAL).getD i celdaNula =
        if i = 0 then ⟨f, c, Pieza.T⟩
        else if i = L - 1 then ⟨f + (L : Int) - 1, c, Pieza.B⟩
        else ⟨f + (i : Int), c, Pieza.M⟩) ∧
    (∀ i, i < L →
      (construir_partes_barco (f, c) L Direccion.HORIZONTAL).getD i celdaNula =
        if i = 0 then ⟨f, c, Pieza.L⟩
        else if i = L - 1 then ⟨f, c + (L : Int) - 1, Pieza.R⟩
        else ⟨f, c + (i : Int), Pieza.M⟩) :=
  ⟨length_construir_partes_barco (f, c) L Direccion.VERTICAL,
   length_construir_partes_barco (f, c) L Direccion.HORIZONTAL,
   fun i hi => construir_partes_barco_vertical_getD f c L i hL hi,
   fun i hi => construir_partes_barco_horizontal_getD f c L i hL hi⟩

/-- C8, witness: the geometry of a vertical ship of length 3 at the origin. -/
theorem C8_barco_geometry_witness :
    (construir_partes_barco (0, 0) 3 Direccion.VERTICAL).length = 3 ∧
    (construir_partes_barco (0, 0) 3 Direccion.VERTICAL).getD 1 celdaNula =
      ⟨0 + (1 : Int), 0, Pieza.M⟩ := by
  refine ⟨(C8_barco_geometry 0 0 3 (by decide)).1, ?_⟩
  have h := (C8_barco_geometry 0 0 3 (by decide)).2.2.1 1 (by decide)
  simpa using h

/-! ### Characterization of the painted matrix -/

/-- All declared cells of a fleet, in fleet order then part order. -/
def allCells : List Objetivo → List Celda
  | [] => []
  | o :: resto => o.partes ++ allCells resto

/-- The last cell of the list claiming position `(f, c)`, if any; follows the
description of §4.2 of the specification (later writers win). -/
def lastClaim (f c : Nat) : List Celda → Option Celda
  | [] => none
  | cd :: resto =>
      match lastClaim f c resto with
      | some e => some e
      | none =>
          if cd.fila = (f : Int) ∧ cd.columna = (c : Int) then some cd else none

/-- Shape invariant of the painted matrix: `filas` rows of `cols` cells. -/
def dimsOk (filas cols : Nat) (m : List (List Pieza)) : Prop :=
  m.length = filas ∧ ∀ row ∈ m, row.length = cols

theorem enRango_iff (filas cols : Nat) (f c : Int) :
    enRango filas cols f c = true ↔
      0 ≤ f ∧ f < (filas : Int) ∧ 0 ≤ c ∧ c < (cols : Int) := by
  simp [enRango]

theorem getD_mem_of_lt {α : Type} (l : List α) (d : α) (i : Nat) (h : i < l.length) :
    l.getD i d ∈ l := by
  rw [List.getD_eq_getElem l d h]
  exact List.getElem_mem h

theorem dimsOk_pintarCelda (filas cols : Nat) (m : List (List Pieza)) (cd : Celda)
    (h : dimsOk filas cols m) : dimsOk filas cols (pintarCelda filas cols m cd) := by
  obtain ⟨hlen, hrows⟩ := h
  rw [pintarCelda]
  split
  · rename_i hran
    rw [enRango_iff] at hran
    have hf : cd.fila.toNat < m.length := by omega
    refine ⟨by simpa [setCell] using hlen, ?_⟩
    intro row hrow
    rcases List.mem_or_eq_of_mem_set hrow with hmem | rfl
    · exact hrows row hmem
    · rw [List.length_set]
      exact hrows _ (getD_mem_of_lt m [] cd.fila.toNat hf)
  · exact ⟨hlen, hrows⟩

theorem dimsOk_foldl_pintar (filas cols : Nat) (cells : List Celda)
    (m : List (List Pieza)) (h : dimsOk filas cols m) :
    dimsOk filas cols (cells.foldl (pintarCelda filas cols) m) := by
  induction cells generalizing m with
  | nil => exact h
  | cons cd resto ih => exact ih _ (dimsOk_pintarCelda filas cols m cd h)

theorem getM_setCell_same (filas cols : Nat) (m : List (List Pieza)) (f c : Nat)
    (v : Pieza) (h : dimsOk filas cols m) (hf : f < filas) (hc : c < cols) :
    getM (setCell m f c v) f c = v := by
  obtain ⟨hlen, hrows⟩ := h
  have hflen : f < m.length := by omega
  have hrowlen : (m.getD f []).length = cols :=
    hrows _ (getD_mem_of_lt m [] f hflen)
  unfold setCell getM
  rw [getD_set, if_pos ⟨rfl, hflen⟩, getD_set, if_pos ⟨rfl, by omega⟩]

theorem getM_setCell_ne (m : List (List Pieza)) (f c f' c' : Nat) (v : Pieza)
    (h : f' ≠ f ∨ c' ≠ c) :
    getM (setCell m f c v) f' c' = getM m f' c' := by
  unfold setCell getM
  rcases h with hne | hne
  · rw [getD_set, if_neg (by tauto)]
  · rw [getD_set]
    by_cases hsame : f = f' ∧ f' < m.length
    · rw [if_pos hsame, getD_set, if_neg (by tauto)]
      rw [hsame.1]
    · rw [if_neg hsame]

theorem getM_foldl_pintar (filas cols : Nat) (cells : List Celda)
    (m : List (List Pieza)) (f c : Nat) (h : dimsOk filas cols m)
    (hf : f < filas) (hc : c < cols) :
    getM (cells.foldl (pintarCelda filas cols) m) f c =
      match lastClaim f c cells with
      | some cd => cd.tipo
      | none => getM m f c := by
  induction cells generalizing m with
  | nil => simp [lastClaim]
  | cons cd resto ih =>
      rw [List.foldl_cons, ih _ (dimsOk_pintarCelda filas cols m cd h)]
      by_cases hrest : ∃ e, lastClaim f c resto = some e
      · obtain ⟨e, he⟩ := hrest
        simp [lastClaim, he]
      · have hnone : lastClaim f c resto = none := by
          cases hlc : lastClaim f c resto
          · rfl
          · exact absurd ⟨_, hlc⟩ hrest
        by_cases hclaim : cd.fila = (f : Int) ∧ cd.columna = (c : Int)
        · have hran : enRango filas cols cd.fila cd.columna = true := by
            rw [enRango_iff, hclaim.1, hclaim.2]
            refine ⟨by positivity, by exact_mod_cast hf, by positivity, by exact_mod_cast hc⟩
          have htoNat : cd.fila.toNat = f ∧ cd.columna.toNat = c := by
            rw [hclaim.1, hclaim.2]; simp
          simp only [lastClaim, hnone, hclaim, and_self, if_pos]
          rw [pintarCelda, if_pos hran, htoNat.1, htoNat.2,
            getM_setCell_same filas cols m f c cd.tipo h hf hc]
        · simp only [lastClaim, hnone, if_neg hclaim]
          rw [pintarCelda]
          split
          · rename_i hran
            rw [enRango_iff] at hran
            refine getM_setCell_ne m _ _ f c cd.tipo ?_
            by_contra hcon
            push_neg at hcon
            obtain ⟨h1, h2⟩ := hcon
            apply hclaim
            constructor <;> omega
          · rfl

theorem construir_matriz_eq_foldl (filas cols : Nat) (flota : List Objetivo)
    (m : List (List Pieza)) :
    flota.foldl (fun matriz obj => obj.partes.foldl (pintarCelda filas cols) matriz) m =
      (allCells flota).foldl (pintarCelda filas cols) m := by
  induction flota generalizing m with
  | nil => rfl
  | cons o resto ih => simp [allCells, List.foldl_append, ih]

theorem dimsOk_construir_matriz (filas cols : Nat) (flota : List Objetivo) :
    dimsOk filas cols (construir_matriz filas cols flota) := by
  rw [construir_matriz, construir_matriz_eq_foldl]
  refine dimsOk_foldl_pintar filas cols _ _ ⟨by simp, ?_⟩
  intro row hrow
  rw [List.eq_of_mem_replicate hrow, List.length_replicate]

theorem getM_construir_matriz (filas cols : Nat) (flota : List Objetivo)
    (f c : Nat) (hf : f < filas) (hc : c < cols) :
    getM (construir_matriz filas cols flota) f c =
      match lastClaim f c (allCells flota) with
      | some cd => cd.tipo
      | none => Pieza.W := by
  rw [construir_matriz, construir_matriz_eq_foldl,
    getM_foldl_pintar filas cols _ _ f c
      ⟨by simp, fun row hrow => by rw [List.eq_of_mem_replicate hrow, List.length_replicate]⟩
      hf hc]
  have hinit : getM (List.replicate filas (List.replicate cols Pieza.W)) f c = Pieza.W := by
    rw [getM, getD_replicate_eq, if_pos hf, getD_replicate_eq]
    split <;> rfl
  cases lastClaim f c (allCells flota) <;> simp [hinit]

/-- C4: for every pair of dimensions and every fleet, `construir_matriz`
totally succeeds, producing a `filas × cols` matrix in which each in-bounds
position holds the declared kind of the last cell (in fleet order, then part
order) claiming it, and Water when no declared cell claims it; out-of-bounds
declared cells are skipped by the painting loop. -/
theorem C4_construir_matriz (filas cols : Nat) (flota : List Objetivo) :
    (construir_matriz filas cols flota).length = filas ∧
    (∀ row ∈ construir_matriz filas cols flota, row.length = cols) ∧
    ∀ f c : Nat, f < filas → c < cols →
      getM (construir_matriz filas cols flota) f c =
        match lastClaim f c (allCells flota) with
        | some cd => cd.tipo
        | none => Pieza.W :=
  ⟨(dimsOk_construir_matriz filas cols flota).1,
   (dimsOk_construir_matriz filas cols flota).2,
   fun f c hf hc => getM_construir_matriz filas cols flota f c hf hc⟩

/-- C4, witness: the origin of a 2×2 board on which a submarine was later
overwritten by a horizontal ship holds the last claimant's kind. -/
theorem C4_construir_matriz_witness :
    getM (construir_matriz 2 2 [mkSubmarino (0, 0), mkBarco (0, 0) 2 Direccion.HORIZONTAL]) 0 0 =
      match lastClaim 0 0 (allCells [mkSubmarino (0, 0), mkBarco (0, 0) 2 Direccion.HORIZONTAL]) with
      | some cd => cd.tipo
      | none => Pieza.W :=
  (C4_construir_matriz 2 2 [mkSubmarino (0, 0), mkBarco (0, 0) 2 Direccion.HORIZONTAL]).2.2
    0 0 (by decide) (by decide)

/-! ### Reads through `pyGet` on a well-shaped matrix never fail -/

theorem pyGet_eq_getD {α : Type} (l : List α) (i : Int) (d : α) (h0 : 0 ≤ i)
    (hlt : i < (l.length : Int)) : pyGet l i = some (l.getD i.toNat d) := by
  have ht : i.toNat < l.length := by omega
  rw [pyGet, if_pos h0, if_pos hlt, List.get?_eq_getElem?, List.getElem?_eq_getElem ht,
    List.getD_eq_getElem l d ht]

theorem pyGet2_eq_getM (filas cols : Nat) (m : List (List Pieza))
    (h : dimsOk filas cols m) (f c : Int) (hran : enRango filas cols f c = true) :
    pyGet2 m f c = some (getM m f.toNat c.toNat) := by
  rw [enRango_iff] at hran
  obtain ⟨hlen, hrows⟩ := h
  have hf : f < (m.length : Int) := by omega
  have hrowlen : (m.getD f.toNat []).length = cols :=
    hrows _ (getD_mem_of_lt m [] f.toNat (by omega))
  have hc : c < ((m.getD f.toNat []).length : Int) := by
    rw [hrowlen]; exact hran.2.2.2
  rw [pyGet2, pyGet_eq_getD m f [] hran.1 hf]
  show pyGet (m.getD f.toNat []) c = some (getM m f.toNat c.toNat)
  rw [pyGet_eq_getD _ c Pieza.W hran.2.2.1 hc]
  rfl

/-! ### Integrity -/

/-- Boolean value `validar_integridad` computes on a well-shaped board. -/
def integridadB (t : Tablero) (o : Objetivo) : Bool :=
  o.partes.all fun p =>
    enRango t.tamano_tablero.1 t.tamano_tablero.2 p.fila p.columna &&
      (getM t.matriz p.fila.toNat p.columna.toNat == p.tipo)

theorem integridadAux_eq_some (filas cols : Nat) (m : List (List Pieza))
    (h : dimsOk filas cols m) (partes : List Celda) :
    integridadAux filas cols m partes =
      some (partes.all fun p =>
        enRango filas cols p.fila p.columna &&
          (getM m p.fila.toNat p.columna.toNat == p.tipo)) := by
  induction partes with
  | nil => rfl
  | cons p resto ih =>
      rw [integridadAux, List.all_cons]
      by_cases hran : enRango filas cols p.fila p.columna = true
      · rw [if_pos hran, pyGet2_eq_getM filas cols m h p.fila p.columna hran]
        by_cases hm : getM m p.fila.toNat p.columna.toNat = p.tipo
        · simp [hran, hm, ih]
        · simp [hran, hm]
      · rw [if_neg hran]
        rw [Bool.not_eq_true] at hran
        simp [hran]

theorem validar_integridad_eq (t : Tablero)
    (h : dimsOk t.tamano_tablero.1 t.tamano_tablero.2 t.matriz) (o : Objetivo) :
    o.validar_integridad t = some (integridadB t o) :=
  integridadAux_eq_some _ _ _ h o.partes

theorem dimsOk_mkTablero (nF nC : Nat) (flota : List Objetivo)
    (pistas : List (Int × Int × Pieza)) (pf pc : List Int) :
    dimsOk (mkTablero nF nC flota pistas pf pc).tamano_tablero.1
      (mkTablero nF nC flota pistas pf pc).tamano_tablero.2
      (mkTablero nF nC flota pistas pf pc).matriz :=
  dimsOk_construir_matriz nF nC flota

theorem integridadAux_spec (filas cols : Nat) (m : List (List Pieza))
    (h : dimsOk filas cols m) (partes : List Celda) :
    (integridadAux filas cols m partes).isSome = true ∧
    ((∃ p ∈ partes, ¬ enRango filas cols p.fila p.columna = true) →
      integridadAux filas cols m partes = some false) ∧
    ((∀ p ∈ partes, enRango filas cols p.fila p.columna = true) →
      (integridadAux filas cols m partes = some true ↔
        ∀ p ∈ partes, getM m p.fila.toNat p.columna.toNat = p.tipo)) := by
  rw [integridadAux_eq_some filas cols m h partes]
  refine ⟨rfl, ?_, ?_⟩
  · rintro ⟨p, hp, hnr⟩
    rw [Bool.not_eq_true] at hnr
    have hfalse : (partes.all fun p =>
        enRango filas cols p.fila p.columna &&
          (getM m p.fila.toNat p.columna.toNat == p.tipo)) = false := by
      rw [List.all_eq_false]
      exact ⟨p, hp, by simp [hnr]⟩
    rw [hfalse]
  · intro hall
    rw [Option.some_inj, List.all_eq_true]
    constructor
    · intro h2 p hp
      have h3 := h2 p hp
      rw [hall p hp, Bool.true_and] at h3
      exact eq_of_beq h3
    · intro h2 p hp
      rw [hall p hp, Bool.true_and, beq_iff_eq]
      exact h2 p hp

/-- C5: on a constructed board, `validar_integridad` never fails (it always
checks bounds before reading), any out-of-bounds declared cell makes it
return `false`, and when every declared cell is in bounds it returns `true`
exactly when the painted kind matches the declared kind everywhere. -/
theorem C5_validar_integridad (nF nC : Nat) (flota : List Objetivo)
    (pistas : List (Int × Int × Pieza)) (pf pc : List Int) (o : Objetivo) :
    (o.validar_integridad (mkTablero nF nC flota pistas pf pc)).isSome = true ∧
    ((∃ p ∈ o.partes, ¬ enRango nF nC p.fila p.columna = true) →
      o.validar_integridad (mkTablero nF nC flota pistas pf pc) = some false) ∧
    ((∀ p ∈ o.partes, enRango nF nC p.fila p.columna = true) →
      (o.validar_integridad (mkTablero nF nC flota pistas pf pc) = some true ↔
        ∀ p ∈ o.partes,
          getM (construir_matriz nF nC flota) p.fila.toNat p.columna.toNat = p.tipo)) :=
  integridadAux_spec nF nC (construir_matriz nF nC flota)
    (dimsOk_construir_matriz nF nC flota) o.partes

/-- C5, witness: a submarine declared at (5,5) on an empty 2×2 board is out of
bounds, so integrity fails without an error; integrity of a submarine at the
origin covering its painted cell holds. -/
theorem C5_validar_integridad_witness :
    (Objetivo.validar_integridad (mkSubmarino (5, 5))
        (mkTablero 2 2 [] [] [] [])).isSome = true ∧
    Objetivo.validar_integridad (mkSubmarino (5, 5)) (mkTablero 2 2 [] [] [] []) =
      some false := by
  refine ⟨(C5_validar_integridad 2 2 [] [] [] [] (mkSubmarino (5, 5))).1, ?_⟩
  exact (C5_validar_integridad 2 2 [] [] [] [] (mkSubmarino (5, 5))).2.1 (by decide)

/-! ### Spacing -/

/-- One neighbor offset imposes no violation: the neighbor is off the grid,
or is one of the target's own coordinates, or holds Water. -/
def vecinoLibre (filas cols : Nat) (m : List (List Pieza)) (mis : List (Int × Int))
    (pf pc : Int) (d : Int × Int) : Bool :=
  !(enRango filas cols (pf + d.1) (pc + d.2)) ||
  decide ((pf + d.1, pc + d.2) ∈ mis) ||
  (getM m (pf + d.1).toNat (pc + d.2).toNat == Pieza.W)

/-- Boolean value `validar_espaciado` computes on a well-shaped board. -/
def espaciadoB (filas cols : Nat) (m : List (List Pieza)) (mis : List (Int × Int))
    (partes : List Celda) : Bool :=
  partes.all fun p =>
    !(enRango filas cols p.fila p.columna) ||
    deltas.all (vecinoLibre filas cols m mis p.fila p.columna)

theorem vecinosAux_eq_some (filas cols : Nat) (m : List (List Pieza))
    (h : dimsOk filas cols m) (mis : List (Int × Int)) (pf pc : Int)
    (ds : List (Int × Int)) :
    vecinosAux filas cols m mis pf pc ds =
      some (ds.all (vecinoLibre filas cols m mis pf pc)) := by
  induction ds with
  | nil => rfl
  | cons d resto ih =>
      obtain ⟨df, dc⟩ := d
      rw [vecinosAux, List.all_cons]
      by_cases hr : enRango filas cols (pf + df) (pc + dc) = true
      · by_cases hm : (pf + df, pc + dc) ∈ mis
        · rw [if_pos hr, if_neg (not_not_intro hm), ih]
          simp [vecinoLibre, hm]
        · rw [if_pos hr, if_pos hm, pyGet2_eq_getM filas cols m h _ _ hr]
          show (if getM m (pf + df).toNat (pc + dc).toNat ≠ Pieza.W then some false
              else vecinosAux filas cols m mis pf pc resto) = _
          by_cases hw : getM m (pf + df).toNat (pc + dc).toNat = Pieza.W
          · rw [if_neg (not_not_intro hw), ih]
            simp [vecinoLibre, hw]
          · rw [if_pos hw]
            simp [vecinoLibre, hr, hm, hw]
      · rw [if_neg hr, ih]
        rw [Bool.not_eq_true] at hr
        simp [vecinoLibre, hr]

theorem espaciadoAux_eq_some (filas cols : Nat) (m : List (List Pieza))
    (h : dimsOk filas cols m) (mis : List (Int × Int)) (partes : List Celda) :
    espaciadoAux filas cols m mis partes =
      some (espaciadoB filas cols m mis partes) := by
  induction partes with
  | nil => rfl
  | cons p resto ih =>
      rw [espaciadoAux, espaciadoB, List.all_cons]
      by_cases hr : enRango filas cols p.fila p.columna = true
      · rw [if_pos hr, vecinosAux_eq_some filas cols m h mis p.fila p.columna deltas]
        cases hb : deltas.all (vecinoLibre filas cols m mis p.fila p.columna)
        · simp [hr, hb]
        · show espaciadoAux filas cols m mis resto = _
          rw [ih, espaciadoB]
          simp [hr, hb]
      · rw [if_neg hr, ih, espaciadoB]
        rw [Bool.not_eq_true] at hr
        simp [hr]

/-- C6: on a constructed board, the spacing check succeeds exactly when every
in-bounds declared cell has all of its 8 neighbors either off the grid, or
among the target's own declared coordinates, or painted Water; out-of-bounds
declared cells and off-grid neighbors impose no condition. -/
theorem C6_validar_espaciado (nF nC : Nat) (flota : List Objetivo)
    (pistas : List (Int × Int × Pieza)) (pf pc : List Int) (o : Objetivo) :
    o.validar_espaciado (mkTablero nF nC flota pistas pf pc) = some true ↔
      ∀ p ∈ o.partes, enRango nF nC p.fila p.columna = true →
        ∀ d ∈ deltas, enRango nF nC (p.fila + d.1) (p.columna + d.2) = true →
          (p.fila + d.1, p.columna + d.2) ∉ (o.partes.map fun q => (q.fila, q.columna)) →
          getM (construir_matriz nF nC flota) (p.fila + d.1).toNat (p.columna + d.2).toNat =
            Pieza.W := by
  have heq : o.validar_espaciado (mkTablero nF nC flota pistas pf pc) =
      some (espaciadoB nF nC (construir_matriz nF nC flota)
        (o.partes.map fun q => (q.fila, q.columna)) o.partes) :=
    espaciadoAux_eq_some nF nC (construir_matriz nF nC flota)
      (dimsOk_construir_matriz nF nC flota) _ o.partes
  rw [heq, Option.some_inj]
  simp only [espaciadoB, vecinoLibre, List.all_eq_true, Bool.or_eq_true,
    Bool.not_eq_true', beq_iff_eq, decide_eq_true_eq]
  constructor
  · intro h p hp hr d hd hnbr hnm
    rcases h p hp with h1 | h2
    · rw [hr] at h1
      cases h1
    · rcases h2 d hd with (h3 | h4) | h5
      · rw [hnbr] at h3
        cases h3
      · exact absurd h4 hnm
      · exact h5
  · intro h p hp
    by_cases hr : enRango nF nC p.fila p.columna = true
    · right
      intro d hd
      by_cases hnbr : enRango nF nC (p.fila + d.1) (p.columna + d.2) = true
      · by_cases hnm : (p.fila + d.1, p.columna + d.2) ∈ (o.partes.map fun q => (q.fila, q.columna))
        · exact Or.inl (Or.inr hnm)
        · exact Or.inr (h p hp hr d hd hnbr hnm)
      · rw [Bool.not_eq_true] at hnbr
        exact Or.inl (Or.inl hnbr)
    · rw [Bool.not_eq_true] at hr
      exact Or.inl hr

/-- C6, witness: a submarine at the origin of a 3×3 board whose only other
ship sits at (2,2) passes the spacing check. -/
theorem C6_validar_espaciado_witness :
    (mkSubmarino (0, 0)).validar_espaciado
      (mkTablero 3 3 [mkSubmarino (0, 0), mkSubmarino (2, 2)] [] [] []) = some true :=
  (C6_validar_espaciado 3 3 [mkSubmarino (0, 0), mkSubmarino (2, 2)] [] [] []
    (mkSubmarino (0, 0))).mpr (by decide)

theorem espaciadoAux_skip (filas cols : Nat) (m : List (List Pieza))
    (mis : List (Int × Int)) (partes : List Celda)
    (h : ∀ p ∈ partes, enRango filas cols p.fila p.columna = false) :
    espaciadoAux filas cols m mis partes = some true := by
  induction partes with
  | nil => rfl
  | cons p resto ih =>
      rw [espaciadoAux, if_neg (by simp [h p (List.mem_cons_self p resto)])]
      exact ih fun q hq => h q (List.mem_cons_of_mem p hq)

/-- C10: a target all of whose declared cells are out of bounds fails the
bounds check and the integrity check, yet passes the spacing check vacuously
(every declared cell is skipped), and none of the three reads the grid out of
range. -/
theorem C10_objetivo_externo (t : Tablero) (o : Objetivo) (hne : o.partes ≠ [])
    (h : ∀ p ∈ o.partes,
      enRango t.tamano_tablero.1 t.tamano_tablero.2 p.fila p.columna = false) :
    o.validar_limites t = false ∧ o.validar_integridad t = some false ∧
      o.validar_espaciado t = some true := by
  refine ⟨?_, ?_, espaciadoAux_skip _ _ _ _ o.partes h⟩
  · rw [Objetivo.validar_limites, List.all_eq_false]
    cases hpp : o.partes with
    | nil => exact absurd hpp hne
    | cons p0 resto =>
        refine ⟨p0, List.mem_cons_self p0 resto, ?_⟩
        rw [h p0 (by rw [hpp]; exact List.mem_cons_self p0 resto)]
        decide
  · rw [Objetivo.validar_integridad]
    cases hpp : o.partes with
    | nil => exact absurd hpp hne
    | cons p0 resto =>
        rw [integridadAux,
          if_neg (by simp [h p0 (by rw [hpp]; exact List.mem_cons_self p0 resto)])]

/-- C10, witness: a submarine declared at (5,5) on an empty 2×2 board. -/
theorem C10_objetivo_externo_witness :
    (mkSubmarino (5, 5)).validar_limites (mkTablero 2 2 [] [] [] []) = false ∧
    (mkSubmarino (5, 5)).validar_integridad (mkTablero 2 2 [] [] [] []) = some false ∧
    (mkSubmarino (5, 5)).validar_espaciado (mkTablero 2 2 [] [] [] []) = some true :=
  C10_objetivo_externo (mkTablero 2 2 [] [] [] []) (mkSubmarino (5, 5))
    (by decide) (by decide)

/-! ### Orchestrator and fleet validation -/

/-- Boolean value `validar_restricciones` computes on a well-shaped board. -/
def restriccionesB (t : Tablero) (o : Objetivo) : Bool :=
  o.validar_limites t && integridadB t o &&
    espaciadoB t.tamano_tablero.1 t.tamano_tablero.2 t.matriz
      (o.partes.map fun q => (q.fila, q.columna)) o.partes

theorem validar_espaciado_eq (t : Tablero)
    (h : dimsOk t.tamano_tablero.1 t.tamano_tablero.2 t.matriz) (o : Objetivo) :
    o.validar_espaciado t =
      some (espaciadoB t.tamano_tablero.1 t.tamano_tablero.2 t.matriz
        (o.partes.map fun q => (q.fila, q.columna)) o.partes) :=
  espaciadoAux_eq_some _ _ _ h _ o.partes

theorem validar_restricciones_eq (t : Tablero)
    (h : dimsOk t.tamano_tablero.1 t.tamano_tablero.2 t.matriz) (o : Objetivo) :
    o.validar_restricciones t = some (restriccionesB t o) := by
  have hi := validar_integridad_eq t h o
  have he := validar_espaciado_eq t h o
  cases hl : o.validar_limites t
  · simp [Objetivo.validar_restricciones, hl, restriccionesB]
  · cases hbi : integridadB t o
    · rw [hbi] at hi
      simp [Objetivo.validar_restricciones, hl, hi, restriccionesB, hbi]
    · rw [hbi] at hi
      cases hbe : espaciadoB t.tamano_tablero.1 t.tamano_tablero.2 t.matriz
          (o.partes.map fun q => (q.fila, q.columna)) o.partes
      · rw [hbe] at he
        simp [Objetivo.validar_restricciones, hl, hi, he, restriccionesB, hbi, hbe]
      · rw [hbe] at he
        simp [Objetivo.validar_restricciones, hl, hi, he, restriccionesB, hbi, hbe]

theorem invalidosAux_eq (t : Tablero)
    (h : dimsOk t.tamano_tablero.1 t.tamano_tablero.2 t.matriz) (l : List Objetivo) :
    invalidosAux t l = some (l.filter fun b => !(restriccionesB t b)) := by
  induction l with
  | nil => rfl
  | cons b resto ih =>
      rw [invalidosAux, validar_restricciones_eq t h b, ih]
      cases hb : restriccionesB t b <;> simp [List.filter_cons, hb]

/-- C7: on a constructed board the orchestrator accepts a target exactly when
bounds, integrity and spacing all pass, and the fleet validator returns
(without failing) exactly the sublist, in fleet order, of targets the
orchestrator rejects. -/
theorem C7_restricciones_y_flota (nF nC : Nat) (flota : List Objetivo)
    (pistas : List (Int × Int × Pieza)) (pf pc : List Int) :
    (∀ o : Objetivo,
      o.validar_restricciones (mkTablero nF nC flota pistas pf pc) = some true ↔
        (o.validar_limites (mkTablero nF nC flota pistas pf pc) = true ∧
         o.validar_integridad (mkTablero nF nC flota pistas pf pc) = some true ∧
         o.validar_espaciado (mkTablero nF nC flota pistas pf pc) = some true)) ∧
    (mkTablero nF nC flota pistas pf pc).obtener_barcos_invalidos =
      some (flota.filter fun b =>
        !(restriccionesB (mkTablero nF nC flota pistas pf pc) b)) := by
  have hd := dimsOk_mkTablero nF nC flota pistas pf pc
  constructor
  · intro o
    rw [validar_restricciones_eq _ hd o, validar_integridad_eq _ hd o,
      validar_espaciado_eq _ hd o]
    simp only [Option.some_inj, restriccionesB, Bool.and_eq_true]
    tauto
  · exact invalidosAux_eq _ hd flota

/-- C7, witness: a lone submarine on a 2×2 board yields an empty offender
list. -/
theorem C7_restricciones_y_flota_witness :
    (mkTablero 2 2 [mkSubmarino (0, 0)] [] [1, 0] [1, 0]).obtener_barcos_invalidos =
      some [] := by
  rw [(C7_restricciones_y_flota 2 2 [mkSubmarino (0, 0)] [] [1, 0] [1, 0]).2]
  decide

/-! ### Row and column counts -/

theorem countP_range_getD {α : Type} (l : List α) (pred : α → Bool) (d : α) :
    (List.range l.length).countP (fun i => pred (l.getD i d)) = l.countP pred := by
  induction l with
  | nil => rfl
  | cons a resto ih =>
      rw [List.length_cons, List.range_succ_eq_map, List.countP_cons, List.countP_map,
        List.countP_cons]
      have hzero : (a :: resto).getD 0 d = a := List.getD_cons_zero
      have hcomp : ((fun i => pred ((a :: resto).getD i d)) ∘ Nat.succ) =
          fun i => pred (resto.getD i d) := by
        funext i
        simp [Function.comp, List.getD_cons_succ]
      rw [hcomp, ih, hzero]

theorem contarAux_eq_some (filas cols : Nat) (m : List (List Pieza))
    (h : dimsOk filas cols m) (f : Nat) (hf : f < filas) (cs : List Nat)
    (hcs : ∀ c ∈ cs, c < cols) :
    contarAux m (f : Int) cs = some (cs.countP fun c => (getM m f c).es_barco) := by
  induction cs with
  | nil => rfl
  | cons c resto ih =>
      have hc : c < cols := hcs c (List.mem_cons_self c resto)
      have hr : enRango filas cols (f : Int) (c : Int) = true := by
        rw [enRango_iff]
        exact ⟨Int.natCast_nonneg f, by exact_mod_cast hf,
          Int.natCast_nonneg c, by exact_mod_cast hc⟩
      rw [contarAux, pyGet2_eq_getM filas cols m h _ _ hr,
        ih fun c' hc' => hcs c' (List.mem_cons_of_mem c hc')]
      show some ((if (getM m f c).es_barco then 1 else 0) +
          resto.countP fun c' => (getM m f c').es_barco) = _
      rw [List.countP_cons, Nat.add_comm]

theorem contarColAux_eq_some (filas cols : Nat) (m : List (List Pieza))
    (h : dimsOk filas cols m) (c : Nat) (hc : c < cols) (fs : List Nat)
    (hfs : ∀ f ∈ fs, f < filas) :
    contarColAux m (c : Int) fs = some (fs.countP fun f => (getM m f c).es_barco) := by
  induction fs with
  | nil => rfl
  | cons f resto ih =>
      have hf : f < filas := hfs f (List.mem_cons_self f resto)
      have hr : enRango filas cols (f : Int) (c : Int) = true := by
        rw [enRango_iff]
        exact ⟨Int.natCast_nonneg f, by exact_mod_cast hf,
          Int.natCast_nonneg c, by exact_mod_cast hc⟩
      rw [contarColAux, pyGet2_eq_getM filas cols m h _ _ hr,
        ih fun f' hf' => hfs f' (List.mem_cons_of_mem f hf')]
      show some ((if (getM m f c).es_barco then 1 else 0) +
          resto.countP fun f' => (getM m f' c).es_barco) = _
      rw [List.countP_cons, Nat.add_comm]

theorem cuentasFilasAux_eq_some (filas cols : Nat) (m : List (List Pieza))
    (h : dimsOk filas cols m) (pfl : List Int) (hlen : filas ≤ pfl.length)
    (fs : List Nat) (hfs : ∀ f ∈ fs, f < filas) :
    cuentasFilasAux m cols pfl fs = some (fs.all fun f =>
      (((List.range cols).countP fun c => (getM m f c).es_barco : Nat) : Int) ==
        pfl.getD f 0) := by
  induction fs with
  | nil => rfl
  | cons f resto ih =>
      have hf : f < filas := hfs f (List.mem_cons_self f resto)
      rw [cuentasFilasAux,
        contarAux_eq_some filas cols m h f hf (List.range cols)
          (fun c hc => List.mem_range.mp hc),
        pyGet_eq_getD pfl (f : Int) 0 (Int.natCast_nonneg f)
          (by exact_mod_cast Nat.lt_of_lt_of_le hf hlen)]
      show (if (((List.range cols).countP fun c => (getM m f c).es_barco : Nat) : Int) ≠
            pfl.getD f 0 then some false
          else cuentasFilasAux m cols pfl resto) = _
      by_cases he : (((List.range cols).countP fun c => (getM m f c).es_barco : Nat) : Int) =
          pfl.getD f 0
      · rw [if_neg (not_not_intro he), ih fun g hg => hfs g (List.mem_cons_of_mem f hg)]
        simp [List.all_cons, he]
      · rw [if_pos he]
        have hbeq : ((((List.range cols).countP fun c => (getM m f c).es_barco : Nat) : Int) ==
            pfl.getD f 0) = false := by
          rw [beq_eq_false_iff_ne]
          exact he
        rw [List.all_cons, hbeq, Bool.false_and]

theorem cuentasColsAux_eq_some (filas cols : Nat) (m : List (List Pieza))
    (h : dimsOk filas cols m) (pcl : List Int) (hlen : cols ≤ pcl.length)
    (cs : List Nat) (hcs : ∀ c ∈ cs, c < cols) :
    cuentasColsAux m filas pcl cs = some (cs.all fun c =>
      (((List.range filas).countP fun f => (getM m f c).es_barco : Nat) : Int) ==
        pcl.getD c 0) := by
  induction cs with
  | nil => rfl
  | cons c resto ih =>
      have hc : c < cols := hcs c (List.mem_cons_self c resto)
      rw [cuentasColsAux,
        contarColAux_eq_some filas cols m h c hc (List.range filas)
          (fun f hf => List.mem_range.mp hf),
        pyGet_eq_getD pcl (c : Int) 0 (Int.natCast_nonneg c)
          (by exact_mod_cast Nat.lt_of_lt_of_le hc hlen)]
      show (if (((List.range filas).countP fun f => (getM m f c).es_barco : Nat) : Int) ≠
            pcl.getD c 0 then some false
          else cuentasColsAux m filas pcl resto) = _
      by_cases he : (((List.range filas).countP fun f => (getM m f c).es_barco : Nat) : Int) =
          pcl.getD c 0
      · rw [if_neg (not_not_intro he), ih fun g hg => hcs g (List.mem_cons_of_mem c hg)]
        simp [List.all_cons, he]
      · rw [if_pos he]
        have hbeq : ((((List.range filas).countP fun f => (getM m f c).es_barco : Nat) : Int) ==
            pcl.getD c 0) = false := by
          rw [beq_eq_false_iff_ne]
          exact he
        rw [List.all_cons, hbeq, Bool.false_and]

/-- C9: with row and column clue sequences at least as long as the respective
dimension, `validar_cuentas` succeeds exactly when every row's number of
non-Water cells equals the row clue and every column's number of non-Water
cells equals the column clue. -/
theorem C9_validar_cuentas (nF nC : Nat) (flota : List Objetivo)
    (pistas : List (Int × Int × Pieza)) (pf pc : List Int)
    (hpf : nF ≤ pf.length) (hpc : nC ≤ pc.length) :
    (mkTablero nF nC flota pistas pf pc).validar_cuentas = some true ↔
      (∀ f, f < nF →
        ((((construir_matriz nF nC flota).getD f []).countP Pieza.es_barco : Nat) : Int) =
          pf.getD f 0) ∧
      (∀ c, c < nC →
        ((((construir_matriz nF nC flota).map fun row => row.getD c Pieza.W).countP
            Pieza.es_barco : Nat) : Int) = pc.getD c 0) := by
  have hd := dimsOk_construir_matriz nF nC flota
  have hrowconv : ∀ f, f < nF →
      ((List.range nC).countP fun c => (getM (construir_matriz nF nC flota) f c).es_barco) =
        ((construir_matriz nF nC flota).getD f []).countP Pieza.es_barco := by
    intro f hf
    have hflt : f < (construir_matriz nF nC flota).length := by rw [hd.1]; exact hf
    have hlen : ((construir_matriz nF nC flota).getD f []).length = nC :=
      hd.2 _ (getD_mem_of_lt _ [] f hflt)
    calc ((List.range nC).countP fun c => (getM (construir_matriz nF nC flota) f c).es_barco)
        = (List.range nC).countP
            (fun c => Pieza.es_barco
              (((construir_matriz nF nC flota).getD f []).getD c Pieza.W)) :=
          List.countP_congr (fun x _ => Iff.rfl)
      _ = (List.range ((construir_matriz nF nC flota).getD f []).length).countP
            (fun c => Pieza.es_barco
              (((construir_matriz nF nC flota).getD f []).getD c Pieza.W)) := by rw [hlen]
      _ = ((construir_matriz nF nC flota).getD f []).countP Pieza.es_barco :=
          countP_range_getD _ _ _
  have hcolconv : ∀ c, c < nC →
      ((List.range nF).countP fun f => (getM (construir_matriz nF nC flota) f c).es_barco) =
        ((construir_matriz nF nC flota).map fun row => row.getD c Pieza.W).countP
          Pieza.es_barco := by
    intro c hc
    have hlen2 : ((construir_matriz nF nC flota).map fun row => row.getD c Pieza.W).length =
        nF := by rw [List.length_map]; exact hd.1
    have hpt : ∀ f ∈ List.range nF,
        ((getM (construir_matriz nF nC flota) f c).es_barco = true) ↔
          (Pieza.es_barco
            (((construir_matriz nF nC flota).map fun row => row.getD c Pieza.W).getD f
              Pieza.W) = true) := by
      intro f hfmem
      have hflt : f < (construir_matriz nF nC flota).length := by
        rw [hd.1]; exact List.mem_range.mp hfmem
      have hgm : getM (construir_matriz nF nC flota) f c =
          ((construir_matriz nF nC flota).map fun row => row.getD c Pieza.W).getD f
            Pieza.W := by
        rw [List.getD_eq_getElem
            ((construir_matriz nF nC flota).map fun row => row.getD c Pieza.W) Pieza.W
            (by rw [List.length_map]; exact hflt),
          List.getElem_map, getM,
          List.getD_eq_getElem (construir_matriz nF nC flota) [] hflt]
      rw [hgm]
    calc ((List.range nF).countP fun f => (getM (construir_matriz nF nC flota) f c).es_barco)
        = (List.range nF).countP
            (fun f => Pieza.es_barco
              (((construir_matriz nF nC flota).map fun row => row.getD c Pieza.W).getD f
                Pieza.W)) := List.countP_congr hpt
      _ = (List.range
            ((construir_matriz nF nC flota).map fun row => row.getD c Pieza.W).length).countP
            (fun f => Pieza.es_barco
              (((construir_matriz nF nC flota).map fun row => row.getD c Pieza.W).getD f
                Pieza.W)) := by rw [hlen2]
      _ = ((construir_matriz nF nC flota).map fun row => row.getD c Pieza.W).countP
            Pieza.es_barco := countP_range_getD _ _ _
  have hrows := cuentasFilasAux_eq_some nF nC _ hd pf hpf (List.range nF)
    (fun f hf => List.mem_range.mp hf)
  have hcols := cuentasColsAux_eq_some nF nC _ hd pc hpc (List.range nC)
    (fun c hc => List.mem_range.mp hc)
  have hval : (mkTablero nF nC flota pistas pf pc).validar_cuentas =
      match cuentasFilasAux (construir_matriz nF nC flota) nC pf (List.range nF) with
      | none => none
      | some false => some false
      | some true =>
          cuentasColsAux (construir_matriz nF nC flota) nF pc (List.range nC) := rfl
  rw [hval, hrows]
  cases hra : (List.range nF).all fun f =>
      (((List.range nC).countP
        fun c => (getM (construir_matriz nF nC flota) f c).es_barco : Nat) : Int) ==
        pf.getD f 0
  · show some false = some true ↔ _
    constructor
    · intro hcon
      exact absurd hcon (by simp)
    · rintro ⟨h1, h2⟩
      exfalso
      rw [List.all_eq_false] at hra
      obtain ⟨f, hfmem, hfne⟩ := hra
      have hflt := List.mem_range.mp hfmem
      apply hfne
      rw [beq_iff_eq, hrowconv f hflt]
      exact h1 f hflt
  · show cuentasColsAux (construir_matriz nF nC flota) nF pc (List.range nC) = some true ↔ _
    rw [hcols, Option.some_inj]
    constructor
    · intro hca
      constructor
      · intro f hf
        rw [List.all_eq_true] at hra
        have hone := hra f (List.mem_range.mpr hf)
        rw [beq_iff_eq] at hone
        rw [← hrowconv f hf]
        exact hone
      · intro c hc
        rw [List.all_eq_true] at hca
        have hone := hca c (List.mem_range.mpr hc)
        rw [beq_iff_eq] at hone
        rw [← hcolconv c hc]
        exact hone
    · rintro ⟨h1, h2⟩
      rw [List.all_eq_true]
      intro c hcmem
      have hc := List.mem_range.mp hcmem
      rw [beq_iff_eq, hcolconv c hc]
      exact h2 c hc

/-- C9, witness: a 2×2 board holding one submarine at the origin matches row
clues `[1, 0]` and column clues `[1, 0]`. -/
theorem C9_validar_cuentas_witness :
    (mkTablero 2 2 [mkSubmarino (0, 0)] [] [1, 0] [1, 0]).validar_cuentas = some true :=
  (C9_validar_cuentas 2 2 [mkSubmarino (0, 0)] [] [1, 0] [1, 0]
    (by decide) (by decide)).mpr (by decide)

/-! ### Fixed-cell clues -/

/-- C2, counterexample: on a 1×1 board, a fixed-cell clue at row 1 — outside
the grid — makes `validar_pistas` fail with an index error (`none`); it does
not return `false`, so the clue is not "treated as simply not matching". -/
theorem C2_counterexample :
    (mkTablero 1 1 [] [(1, 0, Pieza.W)] [0] [0]).validar_pistas = none ∧
    (mkTablero 1 1 [] [(1, 0, Pieza.W)] [0] [0]).validar_pistas ≠ some false := by
  decide

theorem pyGet_eq_none {α : Type} (l : List α) (i : Int)
    (h : (l.length : Int) ≤ i ∨ i + l.length < 0) : pyGet l i = none := by
  rw [pyGet]
  rcases h with h | h
  · rw [if_pos (by omega), if_neg (by omega)]
  · rw [if_neg (by omega), if_neg (by omega)]

theorem pyGet_neg_eq_getD {α : Type} (l : List α) (i : Int) (d : α) (h0 : i < 0)
    (h1 : -(l.length : Int) ≤ i) :
    pyGet l i = some (l.getD (i + l.length).toNat d) := by
  have ht : (i + l.length).toNat < l.length := by omega
  rw [pyGet, if_neg (by omega), if_pos (by omega), List.get?_eq_getElem?,
    List.getElem?_eq_getElem ht, List.getD_eq_getElem l d ht]

theorem pyGet_py (α : Type) (l : List α) (i : Int) (d : α)
    (h0 : -(l.length : Int) ≤ i) (h1 : i < (l.length : Int)) :
    pyGet l i = some (l.getD (if i < 0 then i + l.length else i).toNat d) := by
  by_cases hneg : i < 0
  · rw [if_pos hneg]
    exact pyGet_neg_eq_getD l i d hneg h0
  · rw [if_neg hneg]
    exact pyGet_eq_getD l i d (by omega) h1

/-- C2, amended: `validar_pistas` performs no bounds check before reading the
grid.  A clue whose row index is at least the number of rows, or below its
negative, makes the raw read raise an index error (modelled as `none`), and
likewise for the column index once the row read succeeds, instead of the
check returning `false`; indices within Python's accepted range are read
directly when nonnegative and wrap around to `rows + f` (resp. `cols + c`)
when negative, the loop then continuing with the remaining clues. -/
theorem C2_pistas_amended (nF nC : Nat) (flota : List Objetivo) (f c : Int) (k : Pieza)
    (resto : List (Int × Int × Pieza)) (pfl pcl : List Int) :
    (((nF : Int) ≤ f ∨ f + (nF : Int) < 0) →
      (mkTablero nF nC flota ((f, c, k) :: resto) pfl pcl).validar_pistas = none) ∧
    (-(nF : Int) ≤ f → f < (nF : Int) → ((nC : Int) ≤ c ∨ c + (nC : Int) < 0) →
      (mkTablero nF nC flota ((f, c, k) :: resto) pfl pcl).validar_pistas = none) ∧
    (-(nF : Int) ≤ f → f < (nF : Int) → -(nC : Int) ≤ c → c < (nC : Int) →
      (mkTablero nF nC flota ((f, c, k) :: resto) pfl pcl).validar_pistas =
        (if getM (construir_matriz nF nC flota)
              (if f < 0 then f + (nF : Int) else f).toNat
              (if c < 0 then c + (nC : Int) else c).toNat ≠ k
         then some false
         else pistasAux (construir_matriz nF nC flota) resto)) := by
  have hd := dimsOk_construir_matriz nF nC flota
  have hlen : (construir_matriz nF nC flota).length = nF := hd.1
  refine ⟨?_, ?_, ?_⟩
  · intro hf
    have hget : pyGet (construir_matriz nF nC flota) f = none := by
      apply pyGet_eq_none
      rw [hlen]
      exact hf
    show pistasAux (construir_matriz nF nC flota) ((f, c, k) :: resto) = none
    rw [pistasAux, pyGet2, hget]
  · intro hflo hfhi hc
    have hfeq : pyGet (construir_matriz nF nC flota) f =
        some ((construir_matriz nF nC flota).getD
          (if f < 0 then f + (nF : Int) else f).toNat []) := by
      have hpy := pyGet_py (List Pieza) (construir_matriz nF nC flota) f []
        (by rw [hlen]; exact hflo) (by rw [hlen]; exact hfhi)
      rw [hlen] at hpy
      exact hpy
    have hrowlen : ((construir_matriz nF nC flota).getD
        (if f < 0 then f + (nF : Int) else f).toNat []).length = nC := by
      apply hd.2
      apply getD_mem_of_lt
      rw [hlen]
      split_ifs with hneg <;> omega
    have hcget : pyGet ((construir_matriz nF nC flota).getD
        (if f < 0 then f + (nF : Int) else f).toNat []) c = none := by
      apply pyGet_eq_none
      rw [hrowlen]
      exact hc
    have h2 : pyGet2 (construir_matriz nF nC flota) f c = none := by
      rw [pyGet2, hfeq]
      exact hcget
    show pistasAux (construir_matriz nF nC flota) ((f, c, k) :: resto) = none
    rw [pistasAux, h2]
  · intro hflo hfhi hclo hchi
    have hfeq : pyGet (construir_matriz nF nC flota) f =
        some ((construir_matriz nF nC flota).getD
          (if f < 0 then f + (nF : Int) else f).toNat []) := by
      have hpy := pyGet_py (List Pieza) (construir_matriz nF nC flota) f []
        (by rw [hlen]; exact hflo) (by rw [hlen]; exact hfhi)
      rw [hlen] at hpy
      exact hpy
    have hrowlen : ((construir_matriz nF nC flota).getD
        (if f < 0 then f + (nF : Int) else f).toNat []).length = nC := by
      apply hd.2
      apply getD_mem_of_lt
      rw [hlen]
      split_ifs with hneg <;> omega
    have hcget : pyGet ((construir_matriz nF nC flota).getD
        (if f < 0 then f + (nF : Int) else f).toNat []) c =
        some (((construir_matriz nF nC flota).getD
          (if f < 0 then f + (nF : Int) else f).toNat []).getD
            (if c < 0 then c + (nC : Int) else c).toNat Pieza.W) := by
      have hpy := pyGet_py Pieza ((construir_matriz nF nC flota).getD
          (if f < 0 then f + (nF : Int) else f).toNat []) c Pieza.W
        (by rw [hrowlen]; exact hclo) (by rw [hrowlen]; exact hchi)
      rw [hrowlen] at hpy
      exact hpy
    have h2 : pyGet2 (construir_matriz nF nC flota) f c =
        some (getM (construir_matriz nF nC flota)
          (if f < 0 then f + (nF : Int) else f).toNat
          (if c < 0 then c + (nC : Int) else c).toNat) := by
      rw [pyGet2, hfeq]
      show pyGet ((construir_matriz nF nC flota).getD
          (if f < 0 then f + (nF : Int) else f).toNat []) c = _
      rw [hcget]
      rfl
    show pistasAux (construir_matriz nF nC flota) ((f, c, k) :: resto) = _
    rw [pistasAux, h2]

/-- C2, amended, witness: the 1×1 board of the counterexample raises; a 2×2
board whose only ship sits at the origin, with the clue `(-1, -1, Water)`,
wraps to position `(1, 1)`, finds Water there, and finishes with `true`. -/
theorem C2_pistas_amended_witness :
    (mkTablero 1 1 [] [(1, 0, Pieza.W)] [0] [0]).validar_pistas = none ∧
    (mkTablero 2 2 [mkSubmarino (0, 0)] [(-1, -1, Pieza.W)] [] []).validar_pistas =
      some true := by
  constructor
  · exact (C2_pistas_amended 1 1 [] 1 0 Pieza.W [] [0] [0]).1 (Or.inl (by decide))
  · have h := (C2_pistas_amended 2 2 [mkSubmarino (0, 0)] (-1) (-1) Pieza.W [] [] []).2.2
      (by decide) (by decide) (by decide) (by decide)
    rw [h]
    decide

/-! ### Order sensitivity of painting -/

/-- A target of the data model: a ship built by `Barco.__init__` (length at
least 1) or a submarine built by `Submarino.__init__`. -/
def esTarget (o : Objetivo) : Prop :=
  (∃ u L d, 1 ≤ L ∧ o = mkBarco u L d) ∨ ∃ u, o = mkSubmarino u

theorem coords_construir_vertical (f c : Int) (L : Nat) (hL : 1 ≤ L) (i : Nat)
    (hi : i < L) :
    ((construir_partes_barco (f, c) L Direccion.VERTICAL).getD i celdaNula).fila =
        f + (i : Int) ∧
    ((construir_partes_barco (f, c) L Direccion.VERTICAL).getD i celdaNula).columna = c := by
  rcases Nat.lt_or_ge L 2 with h2 | h2
  · have hL1 : L = 1 := by omega
    subst hL1
    have hi0 : i = 0 := by omega
    subst hi0
    rw [construir_partes_barco_one_vertical]
    simp
  · rw [construir_partes_barco_vertical_getD f c L i h2 hi]
    split_ifs with h0 hlast
    · subst h0
      simp
    · subst hlast
      refine ⟨?_, rfl⟩
      show f + (L : Int) - 1 = f + ((L - 1 : Nat) : Int)
      omega
    · exact ⟨rfl, rfl⟩

theorem coords_construir_horizontal (f c : Int) (L : Nat) (hL : 1 ≤ L) (i : Nat)
    (hi : i < L) :
    ((construir_partes_barco (f, c) L Direccion.HORIZONTAL).getD i celdaNula).fila = f ∧
    ((construir_partes_barco (f, c) L Direccion.HORIZONTAL).getD i celdaNula).columna =
        c + (i : Int) := by
  rcases Nat.lt_or_ge L 2 with h2 | h2
  · have hL1 : L = 1 := by omega
    subst hL1
    have hi0 : i = 0 := by omega
    subst hi0
    rw [construir_partes_barco_one_horizontal]
    simp
  · rw [construir_partes_barco_horizontal_getD f c L i h2 hi]
    split_ifs with h0 hlast
    · subst h0
      simp
    · subst hlast
      refine ⟨rfl, ?_⟩
      show c + (L : Int) - 1 = c + ((L - 1 : Nat) : Int)
      omega
    · exact ⟨rfl, rfl⟩

theorem nodup_coords_vertical (f c : Int) (L : Nat) (hL : 1 ≤ L) :
    ((construir_partes_barco (f, c) L Direccion.VERTICAL).map
      fun p => (p.fila, p.columna)).Nodup := by
  have hmap : (construir_partes_barco (f, c) L Direccion.VERTICAL).map
      (fun p => (p.fila, p.columna)) = (List.range L).map fun (i : Nat) => (f + (i : Int), c) := by
    apply List.ext_getElem
    · rw [List.length_map, length_construir_partes_barco, List.length_map,
        List.length_range]
    · intro i h1 h2
      rw [List.getElem_map, List.getElem_map, List.getElem_range]
      have hi : i < L := by
        rw [List.length_map, length_construir_partes_barco] at h1
        exact h1
      have hco := coords_construir_vertical f c L hL i hi
      rw [← List.getD_eq_getElem _ celdaNula, hco.1, hco.2]
  rw [hmap]
  refine List.Nodup.map ?_ (List.nodup_range L)
  intro a b hab
  have hab1 : f + (a : Int) = f + (b : Int) := congrArg Prod.fst hab
  omega

theorem nodup_coords_horizontal (f c : Int) (L : Nat) (hL : 1 ≤ L) :
    ((construir_partes_barco (f, c) L Direccion.HORIZONTAL).map
      fun p => (p.fila, p.columna)).Nodup := by
  have hmap : (construir_partes_barco (f, c) L Direccion.HORIZONTAL).map
      (fun p => (p.fila, p.columna)) = (List.range L).map fun (i : Nat) => (f, c + (i : Int)) := by
    apply List.ext_getElem
    · rw [List.length_map, length_construir_partes_barco, List.length_map,
        List.length_range]
    · intro i h1 h2
      rw [List.getElem_map, List.getElem_map, List.getElem_range]
      have hi : i < L := by
        rw [List.length_map, length_construir_partes_barco] at h1
        exact h1
      have hco := coords_construir_horizontal f c L hL i hi
      rw [← List.getD_eq_getElem _ celdaNula, hco.1, hco.2]
  rw [hmap]
  refine List.Nodup.map ?_ (List.nodup_range L)
  intro a b hab
  have hab2 : c + (a : Int) = c + (b : Int) := congrArg Prod.snd hab
  omega

theorem esTarget_nodup (o : Objetivo) (h : esTarget o) :
    (o.partes.map fun p => (p.fila, p.columna)).Nodup := by
  rcases h with ⟨u, L, d, hL, rfl⟩ | ⟨u, rfl⟩
  · obtain ⟨f, c⟩ := u
    cases d
    · exact nodup_coords_vertical f c L hL
    · exact nodup_coords_horizontal f c L hL
  · simp [mkSubmarino, submarino_partes]

theorem lastClaim_append (f c : Nat) (l1 l2 : List Celda) :
    lastClaim f c (l1 ++ l2) =
      match lastClaim f c l2 with
      | some e => some e
      | none => lastClaim f c l1 := by
  induction l1 with
  | nil =>
      show lastClaim f c l2 = _
      cases lastClaim f c l2 <;> rfl
  | cons p resto ih =>
      rw [List.cons_append, lastClaim, ih, lastClaim]
      cases lastClaim f c l2 <;> cases lastClaim f c resto <;> rfl

theorem lastClaim_eq_some (f c : Nat) (l : List Celda) (e : Celda)
    (h : lastClaim f c l = some e) :
    e ∈ l ∧ e.fila = (f : Int) ∧ e.columna = (c : Int) := by
  induction l with
  | nil => cases h
  | cons p resto ih =>
      rw [lastClaim] at h
      cases hlc : lastClaim f c resto with
      | some e2 =>
          rw [hlc] at h
          injection h with h
          subst h
          have hrec := ih hlc
          exact ⟨List.mem_cons_of_mem p hrec.1, hrec.2⟩
      | none =>
          rw [hlc] at h
          by_cases hcl : p.fila = (f : Int) ∧ p.columna = (c : Int)
          · rw [if_pos hcl] at h
            injection h with h
            subst h
            exact ⟨List.mem_cons_self p resto, hcl.1, hcl.2⟩
          · rw [if_neg hcl] at h
            cases h

theorem lastClaim_eq_none (f c : Nat) (l : List Celda)
    (h : ∀ p ∈ l, ¬(p.fila = (f : Int) ∧ p.columna = (c : Int))) :
    lastClaim f c l = none := by
  induction l with
  | nil => rfl
  | cons p resto ih =>
      rw [lastClaim, ih fun q hq => h q (List.mem_cons_of_mem p hq)]
      show (if p.fila = (f : Int) ∧ p.columna = (c : Int) then some p else none) = none
      rw [if_neg (h p (List.mem_cons_self p resto))]

theorem lastClaim_self (f c : Nat) (l : List Celda)
    (hnd : (l.map fun p => (p.fila, p.columna)).Nodup)
    (e : Celda) (he : e ∈ l) (hf : e.fila = (f : Int)) (hc : e.columna = (c : Int)) :
    lastClaim f c l = some e := by
  induction l with
  | nil => cases he
  | cons p resto ih =>
      rw [List.map_cons, List.nodup_cons] at hnd
      rcases List.mem_cons.mp he with rfl | hmem
      · have hnone : lastClaim f c resto = none := by
          apply lastClaim_eq_none
          intro q hq hcl
          apply hnd.1
          rw [List.mem_map]
          exact ⟨q, hq, by rw [hcl.1, hcl.2, hf, hc]⟩
        rw [lastClaim, hnone]
        show (if e.fila = (f : Int) ∧ e.columna = (c : Int) then some e else none) = some e
        rw [if_pos ⟨hf, hc⟩]
      · rw [lastClaim, ih hnd.2 hmem]

theorem allCells_append (l1 l2 : List Objetivo) :
    allCells (l1 ++ l2) = allCells l1 ++ allCells l2 := by
  induction l1 with
  | nil => rfl
  | cons o resto ih => rw [List.cons_append, allCells, ih, allCells, List.append_assoc]

theorem mem_allCells (l : List Objetivo) (q : Celda) :
    q ∈ allCells l ↔ ∃ o ∈ l, q ∈ o.partes := by
  induction l with
  | nil => simp [allCells]
  | cons o resto ih => simp [allCells, ih]

/-- C3: painting is order-sensitive. If targets `T1` (earlier) and `T2`
(later) of the fleet declare a common in-bounds position with different
kinds, all of `T2`'s cells are in bounds, and no target after `T2` claims any
of `T2`'s positions, then the matrix holds `T2`'s kind at the shared
position, `T1` fails the integrity check and `T2` passes it. -/
theorem C3_solapamiento (nF nC : Nat) (flota : List Objetivo)
    (pistas : List (Int × Int × Pieza)) (pfl pcl : List Int)
    (T1 T2 : Objetivo) (i j : Nat) (hi : i < flota.length) (hj : j < flota.length)
    (hij : i < j) (hT1 : flota.get ⟨i, hi⟩ = T1) (hT2 : flota.get ⟨j, hj⟩ = T2)
    (hT1v : esTarget T1) (hT2v : esTarget T2)
    (c1 c2 : Celda) (hc1 : c1 ∈ T1.partes) (hc2 : c2 ∈ T2.partes)
    (hpos : c1.fila = c2.fila ∧ c1.columna = c2.columna)
    (hkind : c1.tipo ≠ c2.tipo)
    (hT2in : ∀ p ∈ T2.partes, enRango nF nC p.fila p.columna = true)
    (hlater : ∀ k, j < k → ∀ hk : k < flota.length,
      ∀ q ∈ (flota.get ⟨k, hk⟩).partes, ∀ p ∈ T2.partes,
        ¬(q.fila = p.fila ∧ q.columna = p.columna)) :
    getM (construir_matriz nF nC flota) c2.fila.toNat c2.columna.toNat = c2.tipo ∧
    T1.validar_integridad (mkTablero nF nC flota pistas pfl pcl) = some false ∧
    T2.validar_integridad (mkTablero nF nC flota pistas pfl pcl) = some true := by
  have hd := dimsOk_construir_matriz nF nC flota
  have hdecomp : flota = flota.take j ++ T2 :: flota.drop (j + 1) := by
    conv_lhs => rw [← List.take_append_drop j flota]
    rw [List.drop_eq_getElem_cons hj, show flota[j] = T2 from hT2]
  have hcells : allCells flota =
      allCells (flota.take j) ++ (T2.partes ++ allCells (flota.drop (j + 1))) := by
    conv_lhs => rw [hdecomp]
    rw [allCells_append]
    rfl
  have hlaterCells : ∀ p ∈ T2.partes, ∀ q ∈ allCells (flota.drop (j + 1)),
      ¬(q.fila = p.fila ∧ q.columna = p.columna) := by
    intro p hp q hq
    rw [mem_allCells] at hq
    obtain ⟨o, ho, hqo⟩ := hq
    obtain ⟨k, hk, hko⟩ := List.mem_iff_getElem.mp ho
    have hk2 : j + 1 + k < flota.length := by
      rw [List.length_drop] at hk
      omega
    have hoe : flota.get ⟨j + 1 + k, hk2⟩ = o := by
      rw [← hko]
      show flota[j + 1 + k] = (flota.drop (j + 1))[k]
      rw [List.getElem_drop]
    exact hlater (j + 1 + k) (by omega) hk2 q (by rw [hoe]; exact hqo) p hp
  have hnodup := esTarget_nodup T2 hT2v
  have hT2get : ∀ p ∈ T2.partes,
      getM (construir_matriz nF nC flota) p.fila.toNat p.columna.toNat = p.tipo := by
    intro p hp
    have hran := hT2in p hp
    rw [enRango_iff] at hran
    have hfnat : p.fila.toNat < nF := by omega
    have hcnat : p.columna.toNat < nC := by omega
    have hfl : p.fila = ((p.fila.toNat : Nat) : Int) := by omega
    have hcl : p.columna = ((p.columna.toNat : Nat) : Int) := by omega
    have hnone : lastClaim p.fila.toNat p.columna.toNat
        (allCells (flota.drop (j + 1))) = none := by
      apply lastClaim_eq_none
      intro q hq hclaims
      exact hlaterCells p hp q hq ⟨by rw [hclaims.1, ← hfl], by rw [hclaims.2, ← hcl]⟩
    have hself : lastClaim p.fila.toNat p.columna.toNat T2.partes = some p :=
      lastClaim_self _ _ _ hnodup p hp hfl hcl
    have hmid : lastClaim p.fila.toNat p.columna.toNat
        (T2.partes ++ allCells (flota.drop (j + 1))) = some p := by
      rw [lastClaim_append, hnone]
      exact hself
    have hall : lastClaim p.fila.toNat p.columna.toNat (allCells flota) = some p := by
      rw [hcells, lastClaim_append, hmid]
    rw [getM_construir_matriz nF nC flota _ _ hfnat hcnat, hall]
  have hshared : getM (construir_matriz nF nC flota) c2.fila.toNat c2.columna.toNat =
      c2.tipo := hT2get c2 hc2
  refine ⟨hshared, ?_, ?_⟩
  · have heq := integridadAux_eq_some nF nC (construir_matriz nF nC flota) hd T1.partes
    show integridadAux nF nC (construir_matriz nF nC flota) T1.partes = some false
    rw [heq, Option.some_inj, List.all_eq_false]
    refine ⟨c1, hc1, ?_⟩
    have hg : getM (construir_matriz nF nC flota) c1.fila.toNat c1.columna.toNat =
        c2.tipo := by
      rw [hpos.1, hpos.2]
      exact hshared
    have hbeq : (getM (construir_matriz nF nC flota) c1.fila.toNat c1.columna.toNat ==
        c1.tipo) = false := by
      rw [beq_eq_false_iff_ne, hg]
      exact Ne.symm hkind
    simp [hbeq]
  · exact ((integridadAux_spec nF nC (construir_matriz nF nC flota) hd T2.partes).2.2
      hT2in).mpr hT2get

/-- C3, witness: a submarine at the origin followed by a horizontal ship of
length 2 anchored at the origin, on a 3×3 board. -/
theorem C3_solapamiento_witness :
    getM (construir_matriz 3 3 [mkSubmarino (0, 0), mkBarco (0, 0) 2 Direccion.HORIZONTAL])
      0 0 = Pieza.L ∧
    (mkSubmarino (0, 0)).validar_integridad
      (mkTablero 3 3 [mkSubmarino (0, 0), mkBarco (0, 0) 2 Direccion.HORIZONTAL]
        [] [] []) = some false ∧
    (mkBarco (0, 0) 2 Direccion.HORIZONTAL).validar_integridad
      (mkTablero 3 3 [mkSubmarino (0, 0), mkBarco (0, 0) 2 Direccion.HORIZONTAL]
        [] [] []) = some true :=
  C3_solapamiento 3 3 [mkSubmarino (0, 0), mkBarco (0, 0) 2 Direccion.HORIZONTAL]
    [] [] [] (mkSubmarino (0, 0)) (mkBarco (0, 0) 2 Direccion.HORIZONTAL)
    0 1 (by decide) (by decide) (by decide) rfl rfl
    (Or.inr ⟨(0, 0), rfl⟩)
    (Or.inl ⟨(0, 0), 2, Direccion.HORIZONTAL, by decide, rfl⟩)
    ⟨0, 0, Pieza.C⟩ ⟨0, 0, Pieza.L⟩ (by decide) (by decide)
    (by decide) (by decide) (by decide)
    (fun k hk1 hk => absurd hk (by simp only [List.length_cons, List.length_nil]; omega))
